import Mathlib

/-!
Shallow embedding of the ndarray C runtime (strided multidimensional array
views over flat byte buffers) and proofs about its index arithmetic, layout
classification, broadcasting and cast admissibility.

Conventions of the embedding:
* C `int64_t` values are modelled as `Int`; C `/` and `%` on signed ints are
  truncation-toward-zero division, modelled as `Int.tdiv` / `Int.tmod`.
* C arrays indexed by an explicit `ndims` argument are modelled as `List Int`
  whose length plays the role of `ndims`.
* Functions that can fail (return `-1` / `NULL` in C) either return the same
  sentinel as the C code or are wrapped in `Option` when the C result is a
  written-out buffer or a pointer.
-/

/-- Enumeration of ndarray orders (orders.h): row-major = 1, column-major = 2. -/
inductive NDARRAY_ORDER where
  | NDARRAY_ROW_MAJOR
  | NDARRAY_COLUMN_MAJOR
deriving DecidableEq, Repr

export NDARRAY_ORDER (NDARRAY_ROW_MAJOR NDARRAY_COLUMN_MAJOR)

/-- Enumeration of ndarray index modes (index_modes.h): error = 1, clamp = 2,
wrap = 3.  Any value other than clamp/wrap behaves as error in the C code, so
the three constructors cover all behaviours. -/
inductive NDARRAY_INDEX_MODE where
  | NDARRAY_INDEX_ERROR
  | NDARRAY_INDEX_CLAMP
  | NDARRAY_INDEX_WRAP
deriving DecidableEq, Repr

export NDARRAY_INDEX_MODE (NDARRAY_INDEX_ERROR NDARRAY_INDEX_CLAMP NDARRAY_INDEX_WRAP)

/-- Flag bit for a row-major contiguous array (macros.h): 0x1. -/
def NDARRAY_ROW_MAJOR_CONTIGUOUS_FLAG : Int := 1

/-- Flag bit for a column-major contiguous array (macros.h): 0x2. -/
def NDARRAY_COLUMN_MAJOR_CONTIGUOUS_FLAG : Int := 2

/-- Number of valid dtype enumeration values (dtypes.h): the enum runs
`NDARRAY_BOOL = 0` through `NDARRAY_GENERIC = 22`, so `NDARRAY_NDTYPES = 23`. -/
def NDARRAY_NDTYPES : Int := 23

/-- Restricts an index to the interval `[0,max]` (clamp_index.h). -/
def ndarray_clamp_index (idx max : Int) : Int :=
  if idx < 0 then 0
  else if idx > max then max
  else idx

/-- Wraps an index on the interval `[0,max]` (wrap_index.h).  Faithful
translation: the C code avoids the native `%` on negative operands and instead
uses truncating division with an explicit correction step. -/
def ndarray_wrap_index (idx max : Int) : Int :=
  let mp1 := max + 1
  if idx < 0 then
    let i1 := idx + mp1
    if i1 < 0 then
      let i2 := i1 - mp1 * (Int.tdiv i1 mp1)
      if i2 ≠ 0 then i2 + mp1 else i2
    else i1
  else if idx > max then
    let i1 := idx - mp1
    if i1 > max then Int.tmod i1 mp1 else i1
  else idx

/-- Returns an index given an index mode (ind.h); `-1` signals out-of-bounds in
error mode. -/
def ndarray_ind (idx max : Int) (mode : NDARRAY_INDEX_MODE) : Int :=
  match mode with
  | NDARRAY_INDEX_CLAMP => ndarray_clamp_index idx max
  | NDARRAY_INDEX_WRAP => ndarray_wrap_index idx max
  | NDARRAY_INDEX_ERROR => if idx < 0 ∨ idx > max then -1 else idx

/-- Loop body of `ndarray_numel` (numel.c): accumulates the product of the
dimensions, returning 0 as soon as a negative extent is seen. -/
def numelGo (n : Int) : List Int → Int
  | [] => n
  | d :: rest => if d < 0 then 0 else numelGo (n * d) rest

/-- Returns the number of elements in an array (numel.c).  Note the C code
returns 0 (not 1) when `ndims == 0`. -/
def ndarray_numel (shape : List Int) : Int :=
  if shape.length = 0 then 0 else numelGo 1 shape

/-- Loop of `ndarray_strides2order` (strides2order.c): `s1` is the absolute
value of the previously inspected stride; `row`/`column` record whether the
strides seen so far are compatible with row-major (non-increasing magnitudes)
resp. column-major (non-decreasing magnitudes) order.  Note the `else if` in
the C code: when the column test fires the row test is skipped. -/
def strides2orderGo (s1 : Int) (row column : Bool) : List Int → Int
  | [] => if row && column then 3 else if row then 1 else 2
  | s :: rest =>
    if column && decide (|s| < s1) then
      if row || false then strides2orderGo |s| row false rest else 0
    else if row && decide (|s| > s1) then
      if false || column then strides2orderGo |s| false column rest else 0
    else
      if row || column then strides2orderGo |s| row column rest else 0

/-- Determines the order of an array from its stride array (strides2order.c):
0 = neither, 1 = row-major, 2 = column-major, 3 = both.  For `ndims == 0` the
C code returns 0 ("none"). -/
def ndarray_strides2order (strides : List Int) : Int :=
  match strides with
  | [] => 0
  | s :: rest => strides2orderGo |s| true true rest

/-- Loop of `ndarray_shape2strides` (shape2strides.c) in the direction of
increasing index: emits the running product `s` before multiplying in each
extent. -/
def shape2stridesGo (s : Int) : List Int → List Int
  | [] => []
  | d :: rest => s :: shape2stridesGo (s * d) rest

/-- Generates a stride array from an array shape (shape2strides.c).  The
column-major loop runs the index forward; the row-major loop runs the same
accumulation from the last axis to the first, which is the forward loop over
the reversed shape with the output reversed back. -/
def ndarray_shape2strides (shape : List Int) (order : NDARRAY_ORDER) : List Int :=
  match order with
  | NDARRAY_COLUMN_MAJOR => shape2stridesGo 1 shape
  | NDARRAY_ROW_MAJOR => (shape2stridesGo 1 shape.reverse).reverse

/-- Determines the iteration order from a stride array (iteration_order.c):
1 if no stride is negative, -1 if all are negative, 0 for mixed signs. -/
def ndarray_iteration_order (strides : List Int) : Int :=
  let cnt := (strides.countP (fun s => decide (s < 0)) : Int)
  if cnt = 0 then 1
  else if cnt = (strides.length : Int) then -1
  else 0

/-- Loop of `ndarray_minmax_view_buffer_index` (minmax_view_buffer_index.c):
walks the (extent, stride) pairs; a zero extent aborts with `(offset, offset)`;
positive strides extend the maximum, negative strides extend the minimum. -/
def minmaxGo (offset : Int) : List (Int × Int) → Int → Int → Int × Int
  | [], mn, mx => (mn, mx)
  | (d, s) :: rest, mn, mx =>
    if d = 0 then (offset, offset)
    else if s > 0 then minmaxGo offset rest mn (mx + s * (d - 1))
    else if s < 0 then minmaxGo offset rest (mn + s * (d - 1)) mx
    else minmaxGo offset rest mn mx

/-- Computes the minimum and maximum linear indices in an underlying data
buffer accessible to an array view (minmax_view_buffer_index.c).  The C
function writes the pair into `out` and returns status 0; the pair is the
result here. -/
def ndarray_minmax_view_buffer_index (shape strides : List Int) (offset : Int) : Int × Int :=
  minmaxGo offset (shape.zip strides) offset offset

/-- Loop of `ndarray_max_view_buffer_index` (max_view_buffer_index.c). -/
def maxGo (offset : Int) : List (Int × Int) → Int → Int
  | [], idx => idx
  | (d, s) :: rest, idx =>
    if d = 0 then offset
    else if s > 0 then maxGo offset rest (idx + s * (d - 1))
    else maxGo offset rest idx

/-- Computes the maximum linear index in an underlying data buffer accessible
to an array view (max_view_buffer_index.c). -/
def ndarray_max_view_buffer_index (shape strides : List Int) (offset : Int) : Int :=
  maxGo offset (shape.zip strides) offset

/-- Returns the number of bytes per element for a given data type
(bytes_per_element.c).  Data types absent from the switch (float16, bfloat16,
float128, int128/uint128, int256/uint256, generic and anything out of range)
fall through to the default and get 0. -/
def ndarray_bytes_per_element (dtype : Int) : Int :=
  if dtype = 17 then 8        -- NDARRAY_FLOAT64
  else if dtype = 16 then 4   -- NDARRAY_FLOAT32
  else if dtype = 1 then 1    -- NDARRAY_INT8
  else if dtype = 2 then 1    -- NDARRAY_UINT8
  else if dtype = 3 then 1    -- NDARRAY_UINT8C
  else if dtype = 4 then 2    -- NDARRAY_INT16
  else if dtype = 5 then 2    -- NDARRAY_UINT16
  else if dtype = 6 then 4    -- NDARRAY_INT32
  else if dtype = 7 then 4    -- NDARRAY_UINT32
  else if dtype = 8 then 8    -- NDARRAY_INT64
  else if dtype = 9 then 8    -- NDARRAY_UINT64
  else if dtype = 0 then 1    -- NDARRAY_BOOL
  else if dtype = 21 then 1   -- NDARRAY_BINARY
  else if dtype = 19 then 8   -- NDARRAY_COMPLEX64
  else if dtype = 20 then 16  -- NDARRAY_COMPLEX128
  else 0

example : ndarray_wrap_index 13 10 = 2 := by decide
example : ndarray_wrap_index (-1) 10 = 10 := by decide
example : ndarray_wrap_index (-12) 10 = 10 := by decide
example : ndarray_clamp_index 13 10 = 10 := by decide
example : ndarray_numel [10, 8] = 80 := by decide
example : ndarray_numel [] = 0 := by decide
example : ndarray_strides2order [2, 1] = 1 := by decide
example : ndarray_strides2order [1, 10] = 2 := by decide
example : ndarray_strides2order [] = 0 := by decide
example : ndarray_strides2order [5] = 3 := by decide
example : ndarray_shape2strides [2, 3, 10] NDARRAY_ROW_MAJOR = [30, 10, 1] := by decide
example : ndarray_shape2strides [2, 3, 10] NDARRAY_COLUMN_MAJOR = [1, 2, 6] := by decide
example : ndarray_minmax_view_buffer_index [10, 10] [10, 1] 0 = (0, 99) := by decide
example : ndarray_max_view_buffer_index [10, 10] [10, 1] 0 = 99 := by decide
example : ndarray_iteration_order [2, 1] = 1 := by decide
example : ndarray_iteration_order [-2, -1] = -1 := by decide

/-- Shared index normalization prologue of vind2bind.c, bind2vind.c and
ind2sub.c: `len` is the loop-computed product of the shape; clamp and wrap
adjust the index into `[0, len)`; error mode fails (C returns -1) when the
index is out of range. -/
def vindexAdjust (len idx : Int) (mode : NDARRAY_INDEX_MODE) : Option Int :=
  match mode with
  | NDARRAY_INDEX_CLAMP =>
    some (if idx < 0 then 0 else if idx ≥ len then len - 1 else idx)
  | NDARRAY_INDEX_WRAP =>
    some (if idx < 0 then
            let i1 := idx + len
            if i1 < 0 then
              let i2 := i1 - len * (Int.tdiv i1 len)
              if i2 ≠ 0 then i2 + len else i2
            else i1
          else if idx ≥ len then
            let i1 := idx - len
            if i1 ≥ len then Int.tmod i1 len else i1
          else idx)
  | NDARRAY_INDEX_ERROR => if idx < 0 ∨ idx ≥ len then none else some idx

/-- Subscript-decomposition loop shared by vind2bind.c (both orders): the state
is `(idx, ind)`; each axis extracts the digit `idx % d` and accumulates
`digit * stride` into `ind`.  The column-major C loop visits the zipped pairs
in index order; the row-major C loop visits them from the last axis to the
first, i.e. runs this recursion on the reversed pair list. -/
def vind2bindLoop : List (Int × Int) → Int × Int → Int × Int
  | [], p => p
  | (d, st) :: rest, (idx, ind) =>
    let s := Int.tmod idx d
    vind2bindLoop rest (Int.tdiv (idx - s) d, ind + s * st)

/-- Converts a linear index in an array view to a linear index in the
underlying data buffer (vind2bind.c).  In error mode the C function returns
`-1` for an out-of-bounds index. -/
def ndarray_vind2bind (shape strides : List Int) (offset : Int) (order : NDARRAY_ORDER)
    (idx : Int) (mode : NDARRAY_INDEX_MODE) : Int :=
  let len := shape.foldl (· * ·) 1
  match vindexAdjust len idx mode with
  | none => -1
  | some j =>
    match order with
    | NDARRAY_COLUMN_MAJOR => (vind2bindLoop (shape.zip strides) (j, offset)).2
    | NDARRAY_ROW_MAJOR => (vind2bindLoop ((shape.zip strides).reverse) (j, offset)).2

/-- Stride-division loop shared by bind2vind.c (both orders): each axis
computes `k = idx / stride` (truncating), removes `k * stride` from `idx`, and
accumulates `k * |stride|` into `ind`, with the `shape - 1` correction for
negative strides.  The row-major C loop visits the zipped pairs in index
order; the column-major C loop visits them from the last axis to the first. -/
def bind2vindLoop : List (Int × Int) → Int × Int → Int × Int
  | [], p => p
  | (d, st) :: rest, (idx, ind) =>
    let k := Int.tdiv idx st
    if st < 0 then
      bind2vindLoop rest (idx - k * st, ind + (k + (d - 1)) * |st|)
    else
      bind2vindLoop rest (idx - k * st, ind + k * |st|)

/-- Converts a linear index in an underlying data buffer to a linear index in
an array view (bind2vind.c).  In error mode the C function returns `-1` for an
out-of-bounds index.  The `offset` parameter is in the C signature but is never
read by the function body (the view index accumulator starts at 0). -/
def ndarray_bind2vind (shape strides : List Int) (_offset : Int) (order : NDARRAY_ORDER)
    (idx : Int) (mode : NDARRAY_INDEX_MODE) : Int :=
  let len := shape.foldl (· * ·) 1
  match vindexAdjust len idx mode with
  | none => -1
  | some j =>
    match order with
    | NDARRAY_ROW_MAJOR => (bind2vindLoop (shape.zip strides) (j, 0)).2
    | NDARRAY_COLUMN_MAJOR => (bind2vindLoop ((shape.zip strides).reverse) (j, 0)).2

/-- Digit-extraction loop of ind2sub.c for the `offset == 0` regime: the same
mod/div decomposition as `vind2bindLoop`, emitting the subscripts instead of
accumulating a buffer index.  Column-major visits axes in index order;
row-major runs this on the reversed shape and reverses the output. -/
def ind2subViewGo : Int → List Int → List Int
  | _, [] => []
  | idx, d :: rest =>
    let s := Int.tmod idx d
    s :: ind2subViewGo (Int.tdiv (idx - s) d) rest

/-- Stride-division loop of ind2sub.c for the `offset != 0` regime: each axis
divides by the stride (truncating) and corrects negative strides by
`shape - 1`.  Row-major visits axes in index order; column-major runs this on
the reversed pair list and reverses the output. -/
def ind2subBufGo : Int → List (Int × Int) → List Int
  | _, [] => []
  | idx, (d, st) :: rest =>
    let k := Int.tdiv idx st
    if st < 0 then
      (d - 1 + k) :: ind2subBufGo (idx - k * st) rest
    else
      k :: ind2subBufGo (idx - k * st) rest

/-- Converts a linear index to an array of subscripts (ind2sub.c).  Returns
`none` where the C function returns status `-1` (error-mode out-of-bounds);
otherwise the subscript array written to `out`.  When `offset == 0` the index
is decomposed as a view index; otherwise it is treated as a buffer linear
index and divided by the strides. -/
def ndarray_ind2sub (shape strides : List Int) (offset : Int) (order : NDARRAY_ORDER)
    (idx : Int) (mode : NDARRAY_INDEX_MODE) : Option (List Int) :=
  let len := shape.foldl (· * ·) 1
  match vindexAdjust len idx mode with
  | none => none
  | some j =>
    if offset = 0 then
      match order with
      | NDARRAY_COLUMN_MAJOR => some (ind2subViewGo j shape)
      | NDARRAY_ROW_MAJOR => some ((ind2subViewGo j shape.reverse).reverse)
    else
      match order with
      | NDARRAY_ROW_MAJOR => some (ind2subBufGo j (shape.zip strides))
      | NDARRAY_COLUMN_MAJOR => some ((ind2subBufGo j ((shape.zip strides).reverse)).reverse)

example : ndarray_vind2bind [3, 3] [-3, 1] 6 NDARRAY_ROW_MAJOR 1 NDARRAY_INDEX_ERROR = 7 := by
  decide

example : ndarray_bind2vind [3, 3] [-3, 1] 6 NDARRAY_ROW_MAJOR 7 NDARRAY_INDEX_ERROR = 1 := by
  decide

example :
    ndarray_ind2sub [3, 3] [-3, 1] 6 NDARRAY_ROW_MAJOR 7 NDARRAY_INDEX_ERROR = some [0, 1] := by
  decide

/-- Row of the safe-cast table for int8 (safe_casts.h), indexed by the dtype
ordinal 0..22; entries not named in the C designated initializer are
zero-initialized. -/
def NDARRAY_SAFE_CASTS_INT8 : List Int :=
  [0, 1, 0, 0, 1, 0, 1, 0, 1, 0, 0, 0, 0, 0, 0, 0, 1, 1, 0, 1, 1, 0, 0]

/-- Row of the safe-cast table for uint8 (safe_casts.h). -/
def NDARRAY_SAFE_CASTS_UINT8 : List Int :=
  [0, 0, 1, 1, 1, 1, 1, 1, 1, 1, 0, 0, 0, 0, 0, 0, 1, 1, 0, 1, 1, 0, 0]

/-- Row of the safe-cast table for uint8c (safe_casts.h). -/
def NDARRAY_SAFE_CASTS_UINT8C : List Int :=
  [0, 0, 1, 1, 1, 1, 1, 1, 1, 1, 0, 0, 0, 0, 0, 0, 1, 1, 0, 1, 1, 0, 0]

/-- Row of the safe-cast table for int16 (safe_casts.h). -/
def NDARRAY_SAFE_CASTS_INT16 : List Int :=
  [0, 0, 0, 0, 1, 0, 1, 0, 1, 0, 0, 0, 0, 0, 0, 0, 1, 1, 0, 1, 1, 0, 0]

/-- Row of the safe-cast table for uint16 (safe_casts.h). -/
def NDARRAY_SAFE_CASTS_UINT16 : List Int :=
  [0, 0, 0, 0, 0, 1, 1, 1, 1, 1, 0, 0, 0, 0, 0, 0, 1, 1, 0, 1, 1, 0, 0]

/-- Row of the safe-cast table for int32 (safe_casts.h). -/
def NDARRAY_SAFE_CASTS_INT32 : List Int :=
  [0, 0, 0, 0, 0, 0, 1, 0, 1, 0, 0, 0, 0, 0, 0, 0, 0, 1, 0, 0, 1, 0, 0]

/-- Row of the safe-cast table for uint32 (safe_casts.h). -/
def NDARRAY_SAFE_CASTS_UINT32 : List Int :=
  [0, 0, 0, 0, 0, 0, 0, 1, 1, 1, 0, 0, 0, 0, 0, 0, 0, 1, 0, 0, 1, 0, 0]

/-- Row of the safe-cast table for int64 (safe_casts.h). -/
def NDARRAY_SAFE_CASTS_INT64 : List Int :=
  [0, 0, 0, 0, 0, 0, 0, 0, 1, 0, 0, 0, 0, 0, 0, 0, 0, 0, 0, 0, 0, 0, 0]

/-- Row of the safe-cast table for uint64 (safe_casts.h). -/
def NDARRAY_SAFE_CASTS_UINT64 : List Int :=
  [0, 0, 0, 0, 0, 0, 0, 0, 0, 1, 0, 0, 0, 0, 0, 0, 0, 0, 0, 0, 0, 0, 0]

/-- Row of the safe-cast table for float32 (safe_casts.h). -/
def NDARRAY_SAFE_CASTS_FLOAT32 : List Int :=
  [0, 0, 0, 0, 0, 0, 0, 0, 0, 0, 0, 0, 0, 0, 0, 0, 1, 1, 0, 1, 1, 0, 0]

/-- Row of the safe-cast table for float64 (safe_casts.h). -/
def NDARRAY_SAFE_CASTS_FLOAT64 : List Int :=
  [0, 0, 0, 0, 0, 0, 0, 0, 0, 0, 0, 0, 0, 0, 0, 0, 0, 1, 0, 0, 1, 0, 0]

/-- Row of the safe-cast table for complex64 (safe_casts.h). -/
def NDARRAY_SAFE_CASTS_COMPLEX64 : List Int :=
  [0, 0, 0, 0, 0, 0, 0, 0, 0, 0, 0, 0, 0, 0, 0, 0, 0, 0, 0, 1, 1, 0, 0]

/-- Row of the safe-cast table for complex128 (safe_casts.h). -/
def NDARRAY_SAFE_CASTS_COMPLEX128 : List Int :=
  [0, 0, 0, 0, 0, 0, 0, 0, 0, 0, 0, 0, 0, 0, 0, 0, 0, 0, 0, 0, 1, 0, 0]

/-- Row of the safe-cast table for bool (safe_casts.h). -/
def NDARRAY_SAFE_CASTS_BOOL : List Int :=
  [1, 0, 0, 0, 0, 0, 0, 0, 0, 0, 0, 0, 0, 0, 0, 0, 0, 0, 0, 0, 0, 0, 0]

/-- Row of the safe-cast table for binary (safe_casts.h). -/
def NDARRAY_SAFE_CASTS_BINARY : List Int :=
  [0, 0, 0, 0, 0, 0, 0, 0, 0, 0, 0, 0, 0, 0, 0, 0, 0, 0, 0, 0, 0, 1, 0]

/-- Row of the safe-cast table for generic (safe_casts.h). -/
def NDARRAY_SAFE_CASTS_GENERIC : List Int :=
  [0, 0, 0, 0, 0, 0, 0, 0, 0, 0, 0, 0, 0, 0, 0, 0, 0, 0, 0, 0, 0, 0, 1]

/-- The safe-cast pointer table `NDARRAY_SAFE_CASTS` (safe_casts.h): an array
of row pointers indexed by the dtype ordinal.  The designated initializer
names only 16 rows; the remaining entries (int128, uint128, int256, uint256,
float16, bfloat16, float128) are null pointers, and an index outside `[0, 23)`
is out of bounds — both are modelled as `none`. -/
def NDARRAY_SAFE_CASTS (i : Int) : Option (List Int) :=
  if i = 1 then some NDARRAY_SAFE_CASTS_INT8
  else if i = 2 then some NDARRAY_SAFE_CASTS_UINT8
  else if i = 3 then some NDARRAY_SAFE_CASTS_UINT8C
  else if i = 4 then some NDARRAY_SAFE_CASTS_INT16
  else if i = 5 then some NDARRAY_SAFE_CASTS_UINT16
  else if i = 6 then some NDARRAY_SAFE_CASTS_INT32
  else if i = 7 then some NDARRAY_SAFE_CASTS_UINT32
  else if i = 8 then some NDARRAY_SAFE_CASTS_INT64
  else if i = 9 then some NDARRAY_SAFE_CASTS_UINT64
  else if i = 16 then some NDARRAY_SAFE_CASTS_FLOAT32
  else if i = 17 then some NDARRAY_SAFE_CASTS_FLOAT64
  else if i = 19 then some NDARRAY_SAFE_CASTS_COMPLEX64
  else if i = 20 then some NDARRAY_SAFE_CASTS_COMPLEX128
  else if i = 0 then some NDARRAY_SAFE_CASTS_BOOL
  else if i = 21 then some NDARRAY_SAFE_CASTS_BINARY
  else if i = 22 then some NDARRAY_SAFE_CASTS_GENERIC
  else none

/-- Kind classification of the dtype ordinals, following spec 3.1: boolean,
signed integer, unsigned integer, clamped unsigned integer, float, complex
float, raw binary, generic.  Used only by the spec-modelled same-kind table. -/
def dtypeKind (d : Int) : Int :=
  if d = 0 then 0
  else if d = 1 ∨ d = 4 ∨ d = 6 ∨ d = 8 ∨ d = 10 ∨ d = 12 then 1
  else if d = 2 ∨ d = 5 ∨ d = 7 ∨ d = 9 ∨ d = 11 ∨ d = 13 then 2
  else if d = 3 then 3
  else if d = 14 ∨ d = 15 ∨ d = 16 ∨ d = 17 ∨ d = 18 then 4
  else if d = 19 ∨ d = 20 then 5
  else if d = 21 then 6
  else if d = 22 then 7
  else -1

/-- Modelled from the spec: the same-kind cast table `NDARRAY_SAME_KIND_CASTS`.
The header same_kind_casts.h is not part of the source snapshot (assert.c only
declares and dereferences it), so the table is reconstructed from spec 3.1:
an entry is 1 iff the cast is safe or both dtypes belong to the same kind.
The safe part reuses the concrete safe-cast rows where the snapshot has them
(0 where the safe row is itself missing); an index outside `[0, 23)` is out of
bounds, modelled as `none`. -/
def NDARRAY_SAME_KIND_CASTS (i : Int) : Option (List Int) :=
  if 0 ≤ i ∧ i < 23 then
    some ((List.range 23).map (fun j =>
      let safe := ((NDARRAY_SAFE_CASTS i).getD []).getD j 0
      if dtypeKind i = dtypeKind (j : Int) ∨ safe = 1 then 1 else 0))
  else none

/-- Determines if an array data type can be safely cast to another array data
type (assert.c, `ndarray_is_safe_data_type_cast`).  Returns `some status`
where the C function returns a defined status and `none` where the C code
performs an out-of-bounds table read (a negative index, or a null row).  Note
the order of the checks in the C code: `from == to` returns 1 before the range
guard, and the range guard only tests the upper bound `NDARRAY_NDTYPES`. -/
def ndarray_is_safe_data_type_cast (frm tgt : Int) : Option Int :=
  if frm = tgt then some 1
  else if frm < NDARRAY_NDTYPES ∧ tgt < NDARRAY_NDTYPES then
    match NDARRAY_SAFE_CASTS frm with
    | some row => if 0 ≤ tgt then some (row.getD tgt.toNat 0) else none
    | none => none
  else some 0

/-- Determines if an array data type can be cast to another array data type of
the same kind (assert.c, `ndarray_is_same_kind_data_type_cast`).  Same guard
structure as `ndarray_is_safe_data_type_cast`, over the same-kind table. -/
def ndarray_is_same_kind_data_type_cast (frm tgt : Int) : Option Int :=
  if frm = tgt then some 1
  else if frm < NDARRAY_NDTYPES ∧ tgt < NDARRAY_NDTYPES then
    match NDARRAY_SAME_KIND_CASTS frm with
    | some row => if 0 ≤ tgt then some (row.getD tgt.toNat 0) else none
    | none => none
  else some 0

example : ndarray_is_safe_data_type_cast 2 2 = some 1 := by decide
example : ndarray_is_safe_data_type_cast 1 6 = some 1 := by decide
example : ndarray_is_safe_data_type_cast 17 6 = some 0 := by decide
example : ndarray_is_same_kind_data_type_cast 17 6 = some 0 := by decide
example : ndarray_is_same_kind_data_type_cast 17 16 = some 1 := by decide
example : ndarray_is_safe_data_type_cast 30 30 = some 1 := by decide
example : ndarray_is_safe_data_type_cast 23 0 = some 0 := by decide

/-- Bitwise OR on the (nonnegative) flag words of the C code, via `Nat`. -/
def flagOr (a b : Int) : Int := ((a.toNat ||| b.toNat : Nat) : Int)

/-- Bitwise AND on the (nonnegative) flag words of the C code, via `Nat`. -/
def flagAnd (a b : Int) : Int := ((a.toNat &&& b.toNat : Nat) : Int)

/-- Per-axis folding step of `ndarray_broadcast_shapes` (broadcast_shapes.c):
`none` is the failed state (C returns -1); otherwise `dim` is the current
output extent: a 1 is replaced by the incoming extent, an incoming 1 or an
equal extent is absorbed, anything else is incompatible. -/
def bcastStep : Option Int → Int → Option Int
  | none, _ => none
  | some dim, d =>
    if dim = 1 then some d
    else if d = 1 ∨ dim = d then some dim
    else none

/-- Right-aligned extent of a shape for output axis `i` out of `N`
(broadcast_shapes.c): `n = ndims - N + i`; axes missing on the left count as
extent 1. -/
def bcastExt (N : Nat) (sh : List Int) (i : Nat) : Int :=
  let n : Int := (sh.length : Int) - (N : Int) + (i : Int)
  if n < 0 then 1 else sh.getD n.toNat 0

/-- Maximum dimensionality loop of `ndarray_broadcast_shapes`
(broadcast_shapes.c): starts from the first shape's rank and takes the larger
of each subsequent rank. -/
def bcastMaxDims (n0 : Nat) (rest : List (List Int)) : Nat :=
  rest.foldl (fun n s => if s.length > n then s.length else n) n0

/-- Broadcasts array shapes to a single shape (broadcast_shapes.c).  Returns
`none` where the C function returns status -1, otherwise the broadcast shape
written to `out`.  With zero input shapes the C function writes nothing and
returns 0; with one input shape it copies that shape. -/
def ndarray_broadcast_shapes (shapes : List (List Int)) : Option (List Int) :=
  match shapes with
  | [] => some []
  | [sh] => some sh
  | sh :: rest =>
    let N := bcastMaxDims sh.length rest
    let dims := (List.range N).map (fun i =>
      List.foldl bcastStep (bcastStep (some 1) (bcastExt N sh i)) (rest.map (fun s => bcastExt N s i)))
    if dims.all Option.isSome then some (dims.map (fun o => o.getD 0)) else none

example :
    ndarray_broadcast_shapes [[8, 1, 6, 1], [7, 1, 5]] = some [8, 7, 6, 5] := by decide

example : ndarray_broadcast_shapes [[3, 4], [4, 3]] = none := by decide

/-- The ndarray descriptor (include/ndarray.h, struct ndarray).  The byte
buffer pointer `data` is modelled as an abstract integer base address; the
shape/strides/submodes pointers are the lists themselves, with `ndims` and
`nsubmodes` given by their lengths. -/
structure ndarray where
  dtype : Int
  data : Int
  shape : List Int
  strides : List Int
  offset : Int
  order : NDARRAY_ORDER
  imode : NDARRAY_INDEX_MODE
  submodes : List NDARRAY_INDEX_MODE
  length : Int
  BYTES_PER_ELEMENT : Int
  byteLength : Int
  flags : Int

/-- Body of `ndarray_flags` (ndarray.c) as a function of the descriptor fields
it reads: the cached element count, shape, strides, offset and bytes per
element.  An empty view or a mixed-sign stride vector is not contiguous;
otherwise contiguity requires the view to span a single memory segment, and
the row/column bits follow `ndarray_strides2order`. -/
def ndarray_flags_of (len : Int) (shape strides : List Int) (offset nbytes : Int) : Int :=
  let contiguous : Bool :=
    if len = 0 ∨ ndarray_iteration_order strides = 0 then false
    else
      let tmp := ndarray_minmax_view_buffer_index shape strides offset
      decide (len * nbytes = (tmp.2 - tmp.1) + nbytes)
  if contiguous then
    let ord := ndarray_strides2order strides
    let flags : Int := 0
    let flags := if ord = 1 ∨ ord = 3 then flagOr flags NDARRAY_ROW_MAJOR_CONTIGUOUS_FLAG else flags
    let flags := if ord = 2 ∨ ord = 3 then flagOr flags NDARRAY_COLUMN_MAJOR_CONTIGUOUS_FLAG else flags
    flags
  else 0

/-- Returns ndarray flags (ndarray.c, `ndarray_flags`). -/
def ndarray_flags (arr : ndarray) : Int :=
  ndarray_flags_of arr.length arr.shape arr.strides arr.offset arr.BYTES_PER_ELEMENT

/-- Returns a dynamically allocated ndarray (ndarray.c, `ndarray_allocate`):
captures the caller's fields and computes the cached element count, bytes per
element, byte length and layout flags.  Allocation failure (malloc returning
NULL) is not modelled. -/
def ndarray_allocate (dtype data : Int) (shape strides : List Int) (offset : Int)
    (order : NDARRAY_ORDER) (imode : NDARRAY_INDEX_MODE)
    (submodes : List NDARRAY_INDEX_MODE) : ndarray :=
  let len := ndarray_numel shape
  let nbytes := ndarray_bytes_per_element dtype
  { dtype := dtype
    data := data
    shape := shape
    strides := strides
    offset := offset
    order := order
    imode := imode
    submodes := submodes
    length := len
    BYTES_PER_ELEMENT := nbytes
    byteLength := len * nbytes
    flags := ndarray_flags_of len shape strides offset nbytes }

/-- Returns a pointer to an ndarray data element located at a specified linear
index (ndarray.c, `ndarray_iget_ptr`).  The pointer is modelled as the byte
address `data + byte-offset`; `none` models the C `NULL` return.  For
zero-dimensional ndarrays the function returns `data + offset` immediately,
before the index mode is consulted.  For contiguous single-sign-stride views
the translation short-circuits; otherwise the index is decomposed into
subscripts exactly as in vind2bind.c. -/
def ndarray_iget_ptr (arr : ndarray) (idx : Int) : Option Int :=
  if arr.shape.length = 0 then some (arr.data + arr.offset)
  else
    let j := ndarray_ind idx (arr.length - 1) arr.imode
    if j < 0 then none
    else
      let ind := arr.data + arr.offset
      let io := ndarray_iteration_order arr.strides
      if flagAnd arr.flags (flagOr NDARRAY_ROW_MAJOR_CONTIGUOUS_FLAG
            NDARRAY_COLUMN_MAJOR_CONTIGUOUS_FLAG) ≠ 0 ∧ io = 1 then
        some (ind + j * arr.BYTES_PER_ELEMENT)
      else if flagAnd arr.flags (flagOr NDARRAY_ROW_MAJOR_CONTIGUOUS_FLAG
            NDARRAY_COLUMN_MAJOR_CONTIGUOUS_FLAG) ≠ 0 ∧ io = -1 then
        some (ind - j * arr.BYTES_PER_ELEMENT)
      else
        match arr.order with
        | NDARRAY_COLUMN_MAJOR => some (vind2bindLoop (arr.shape.zip arr.strides) (j, ind)).2
        | NDARRAY_ROW_MAJOR => some (vind2bindLoop ((arr.shape.zip arr.strides).reverse) (j, ind)).2

/-- Status part of `ndarray_get_ptr_value` (ndarray.c): dispatches on the
descriptor dtype; the 13 supported dtypes copy the element and return 0, any
other dtype falls through to the default and returns -1.  The copied value
itself lives in the byte buffer and is not modelled. -/
def ndarray_get_ptr_value (arr : ndarray) : Int :=
  if arr.dtype = 17 ∨ arr.dtype = 16 ∨ arr.dtype = 9 ∨ arr.dtype = 8 ∨ arr.dtype = 7 ∨
      arr.dtype = 6 ∨ arr.dtype = 5 ∨ arr.dtype = 4 ∨ arr.dtype = 2 ∨ arr.dtype = 3 ∨
      arr.dtype = 1 ∨ arr.dtype = 20 ∨ arr.dtype = 19 ∨ arr.dtype = 0 then 0
  else -1

/-- Returns an ndarray data element located at a specified linear index
(ndarray.c, `ndarray_iget`): status -1 when the pointer lookup fails,
otherwise the status of the dtype dispatch. -/
def ndarray_iget (arr : ndarray) (idx : Int) : Int :=
  match ndarray_iget_ptr arr idx with
  | none => -1
  | some _ => ndarray_get_ptr_value arr

/-- The maximum accumulator of `minmaxGo` never depends on the minimum
accumulator, and agrees step by step with `maxGo`. -/
theorem maxGo_eq_minmaxGo_snd (l : List (Int × Int)) :
    ∀ off mn mx : Int, maxGo off l mx = (minmaxGo off l mn mx).2 := by
  induction l with
  | nil => intro off mn mx; rfl
  | cons hd tl ih =>
    intro off mn mx
    obtain ⟨d, s⟩ := hd
    by_cases hd0 : d = 0
    · simp [maxGo, minmaxGo, hd0]
    · by_cases hsp : s > 0
      · simp only [maxGo, minmaxGo, if_neg hd0, if_pos hsp]
        exact ih off mn (mx + s * (d - 1))
      · by_cases hsn : s < 0
        · simp only [maxGo, minmaxGo, if_neg hd0, if_neg hsp, if_pos hsn]
          exact ih off (mn + s * (d - 1)) mx
        · simp only [maxGo, minmaxGo, if_neg hd0, if_neg hsp, if_neg hsn]
          exact ih off mn mx

/-- C9: for every (ndims, shape, strides, offset), `ndarray_max_view_buffer_index`
returns exactly the second component (the maximum reachable byte offset) that
`ndarray_minmax_view_buffer_index` writes to its output array for the same
arguments, including the zero-extent-axis case where both report `offset`. -/
theorem C9_max_eq_minmax_snd (shape strides : List Int) (offset : Int) :
    ndarray_max_view_buffer_index shape strides offset =
      (ndarray_minmax_view_buffer_index shape strides offset).2 := by
  unfold ndarray_max_view_buffer_index ndarray_minmax_view_buffer_index
  exact maxGo_eq_minmaxGo_snd _ _ _ _

/-- C2 counterexample: a descriptor allocated with `ndims = 0` caches a length
of 0, not 1 — `ndarray_numel` returns 0 for a zero-rank shape and the
allocator stores that value. -/
theorem C2_zero_rank_length_counterexample :
    (ndarray_allocate 17 0 [] [] 0 NDARRAY_ROW_MAJOR NDARRAY_INDEX_ERROR
        [NDARRAY_INDEX_ERROR]).length ≠ 1 := by
  decide

/-- C2 as amended: for every descriptor constructed by the allocator with
`ndims = 0`, the cached length field equals 0 (the element count computed by
`ndarray_numel` for `ndims = 0` is 0, not 1). -/
theorem C2_zero_rank_length (dtype data : Int) (strides : List Int) (offset : Int)
    (order : NDARRAY_ORDER) (imode : NDARRAY_INDEX_MODE)
    (submodes : List NDARRAY_INDEX_MODE) :
    (ndarray_allocate dtype data [] strides offset order imode submodes).length = 0 := by
  rfl

/-- C3 counterexample: `ndarray_strides2order` does not return 3 for every
`ndims ≤ 1`; at `ndims = 0` it returns 0 ("neither"). -/
theorem C3_strides2order_zero_rank_counterexample :
    ndarray_strides2order [] ≠ 3 := by
  decide

/-- C3 as amended: `ndarray_strides2order` returns 3 ("both row-major and
column-major") for every one-dimensional stride array, but returns 0
("neither") for `ndims = 0`. -/
theorem C3_strides2order_low_rank :
    (∀ s : Int, ndarray_strides2order [s] = 3) ∧ ndarray_strides2order [] = 0 := by
  constructor
  · intro s; rfl
  · rfl

/-- C8: `ndarray_ind2sub` with `ndims = 2`, `shape = [3,3]`,
`strides = [-3,1]`, `offset = 6`, row-major order, linear index 7 and error
mode succeeds and writes the subscripts `[0,1]`: with a non-zero offset the
function interprets the index as a buffer linear index. -/
theorem C8_ind2sub_buffer_regime :
    ndarray_ind2sub [3, 3] [-3, 1] 6 NDARRAY_ROW_MAJOR 7 NDARRAY_INDEX_ERROR =
      some [0, 1] := by
  decide

/-- C10: for every zero-dimensional ndarray and every linear index — negative,
out of range, in any index mode — `ndarray_iget_ptr` returns the pointer
`data + offset` without consulting the index mode, and `ndarray_iget`'s status
is exactly the dtype-dispatch status (0 for every supported dtype), never -1
from an out-of-range index. -/
theorem C10_zero_dim_iget (arr : ndarray) (idx : Int) (h : arr.shape = []) :
    ndarray_iget_ptr arr idx = some (arr.data + arr.offset) ∧
      ndarray_iget arr idx = ndarray_get_ptr_value arr := by
  have hptr : ndarray_iget_ptr arr idx = some (arr.data + arr.offset) := by
    unfold ndarray_iget_ptr
    rw [h]
    rfl
  refine ⟨hptr, ?_⟩
  unfold ndarray_iget
  rw [hptr]

/-- C10 witness: a concrete zero-dimensional float64 ndarray in error mode,
probed with the wildly out-of-range index -5, still resolves to
`data + offset` and gets status 0. -/
theorem C10_zero_dim_iget_witness :
    ndarray_iget_ptr (ndarray_allocate 17 100 [] [] 24 NDARRAY_ROW_MAJOR
        NDARRAY_INDEX_ERROR [NDARRAY_INDEX_ERROR]) (-5) = some (100 + 24) ∧
      ndarray_iget (ndarray_allocate 17 100 [] [] 24 NDARRAY_ROW_MAJOR
        NDARRAY_INDEX_ERROR [NDARRAY_INDEX_ERROR]) (-5) = 0 := by
  have h := C10_zero_dim_iget (ndarray_allocate 17 100 [] [] 24 NDARRAY_ROW_MAJOR
    NDARRAY_INDEX_ERROR [NDARRAY_INDEX_ERROR]) (-5) (by decide)
  exact ⟨h.1, by rw [h.2]; rfl⟩

/-- C4 counterexample: for the out-of-range dtype value 23 (`NDARRAY_NDTYPES`
itself) both cast predicates return 1, not 0, because the `from == to` check
precedes the range guard in assert.c. -/
theorem C4_out_of_range_equal_counterexample :
    ndarray_is_safe_data_type_cast 23 23 = some 1 ∧
      ndarray_is_same_kind_data_type_cast 23 23 = some 1 := by
  decide

/-- C4 as amended: both cast predicates return 1 whenever `from == to`, even
for out-of-range values; and they return 0 when the arguments differ and
either is at least `NDARRAY_NDTYPES` (the C guard checks only the upper bound,
so a negative argument instead reads the table out of bounds). -/
theorem C4_cast_guard (frm tgt : Int) :
    (frm = tgt → ndarray_is_safe_data_type_cast frm tgt = some 1 ∧
      ndarray_is_same_kind_data_type_cast frm tgt = some 1) ∧
    (frm ≠ tgt → NDARRAY_NDTYPES ≤ frm ∨ NDARRAY_NDTYPES ≤ tgt →
      ndarray_is_safe_data_type_cast frm tgt = some 0 ∧
        ndarray_is_same_kind_data_type_cast frm tgt = some 0) := by
  constructor
  · intro h
    subst h
    constructor
    · unfold ndarray_is_safe_data_type_cast
      simp
    · unfold ndarray_is_same_kind_data_type_cast
      simp
  · intro hne hout
    have hguard : ¬ (frm < NDARRAY_NDTYPES ∧ tgt < NDARRAY_NDTYPES) := by
      rcases hout with h | h
      · intro hc; exact absurd h (not_le.mpr hc.1)
      · intro hc; exact absurd h (not_le.mpr hc.2)
    constructor
    · unfold ndarray_is_safe_data_type_cast
      rw [if_neg hne, if_neg hguard]
    · unfold ndarray_is_same_kind_data_type_cast
      rw [if_neg hne, if_neg hguard]

/-- C4 witness: the reflexive case at the valid dtype 5 (uint16) and the
out-of-range rejection at (23, 0). -/
theorem C4_cast_guard_witness :
    (ndarray_is_safe_data_type_cast 5 5 = some 1 ∧
      ndarray_is_same_kind_data_type_cast 5 5 = some 1) ∧
    (ndarray_is_safe_data_type_cast 23 0 = some 0 ∧
      ndarray_is_same_kind_data_type_cast 23 0 = some 0) :=
  ⟨(C4_cast_guard 5 5).1 rfl, (C4_cast_guard 23 0).2 (by decide) (by decide)⟩

/-- An integer congruent to `a` modulo `b` and lying in `[0, b)` is `a % b`. -/
theorem emod_eq_of_decomp {a b r : Int} (k : Int) (h0 : 0 ≤ r) (h1 : r < b)
    (hk : a = r + b * k) : a % b = r := by
  rw [hk, Int.add_mul_emod_self_left]
  exact Int.emod_eq_of_lt h0 h1

/-- Truncating remainder of a negative dividend by a positive divisor is the
negated Euclidean remainder of the negation. -/
theorem tmod_neg_dividend (a b : Int) (ha : a ≤ 0) (hb : 0 ≤ b) :
    a.tmod b = -((-a) % b) := by
  have h1 : (-a).tmod b = (-a) % b := Int.tmod_eq_emod (by omega) hb
  have h2 : (-a).tmod b = -(a.tmod b) := by
    rw [Int.tmod_def, Int.tmod_def, Int.neg_tdiv]
    ring
  omega

/-- C6: for every integer `idx` and every `max ≥ 0`, `ndarray_wrap_index`
returns the Euclidean remainder of `idx` modulo `max + 1` — a value in
`[0, max]` congruent to `idx` — independently of the sign convention of the
native `%` operator. -/
theorem C6_wrap_index_euclidean (idx max : Int) (h : 0 ≤ max) :
    ndarray_wrap_index idx max = idx % (max + 1) := by
  have hmp : 0 < max + 1 := by omega
  unfold ndarray_wrap_index
  by_cases hneg : idx < 0
  · rw [if_pos hneg]
    by_cases h1 : idx + (max + 1) < 0
    · rw [if_pos h1]
      set q := Int.tdiv (idx + (max + 1)) (max + 1) with hq
      have htm : idx + (max + 1) - (max + 1) * q =
          -((-(idx + (max + 1))) % (max + 1)) := by
        rw [hq, ← Int.tmod_def]
        exact tmod_neg_dividend _ _ (by omega) (by omega)
      have hnn : 0 ≤ (-(idx + (max + 1))) % (max + 1) :=
        Int.emod_nonneg _ (by omega)
      have hlt : (-(idx + (max + 1))) % (max + 1) < max + 1 :=
        Int.emod_lt_of_pos _ hmp
      by_cases h2 : idx + (max + 1) - (max + 1) * q ≠ 0
      · rw [if_pos h2]
        exact (emod_eq_of_decomp (q - 2) (by omega) (by omega) (by ring)).symm
      · rw [if_neg h2]
        push_neg at h2
        have : idx = 0 + (max + 1) * (q - 1) := by rw [mul_sub, mul_one]; omega
        rw [emod_eq_of_decomp (q - 1) le_rfl hmp this]
        omega
    · rw [if_neg h1]
      exact (emod_eq_of_decomp (-1) (by omega) (by omega) (by ring)).symm
  · rw [if_neg hneg]
    by_cases h1 : idx > max
    · rw [if_pos h1]
      by_cases h2 : idx - (max + 1) > max
      · rw [if_pos h2]
        rw [Int.tmod_eq_emod (by omega) (by omega)]
        conv_rhs => rw [show idx = idx - (max + 1) + (max + 1) * 1 by ring]
        rw [Int.add_mul_emod_self_left]
      · rw [if_neg h2]
        exact (emod_eq_of_decomp 1 (by omega) (by omega) (by ring)).symm
    · rw [if_neg h1]
      exact (Int.emod_eq_of_lt (by omega) (by omega)).symm

/-- C6 witness: wrap(-12, 10) lands on the Euclidean remainder 10. -/
theorem C6_wrap_index_euclidean_witness :
    ndarray_wrap_index (-12) 10 = (-12) % 11 ∧ (-12 : Int) % 11 = 10 :=
  ⟨C6_wrap_index_euclidean (-12) 10 (by decide), by decide⟩

/-- Unfolding equation of `bcastStep` on a live state. -/
theorem bcastStep_some (dim d : Int) :
    bcastStep (some dim) d =
      (if dim = 1 then some d else if d = 1 ∨ dim = d then some dim else none) := rfl

/-- The broadcast folding step is insensitive to the order in which two
extents are absorbed. -/
theorem bcastStep_right_comm (b : Option Int) (a₁ a₂ : Int) :
    bcastStep (bcastStep b a₁) a₂ = bcastStep (bcastStep b a₂) a₁ := by
  cases b with
  | none => rfl
  | some dim =>
    rw [bcastStep_some dim a₁, bcastStep_some dim a₂]
    by_cases h1 : dim = 1
    · subst h1
      rw [if_pos rfl, if_pos rfl, bcastStep_some, bcastStep_some]
      by_cases h2 : a₁ = 1
      · subst h2
        rw [if_pos rfl]
        by_cases h3 : a₂ = 1
        · subst h3; rw [if_pos rfl]
        · rw [if_neg h3, if_pos (Or.inl rfl)]
      · rw [if_neg h2]
        by_cases h3 : a₂ = 1
        · subst h3
          rw [if_pos rfl, if_pos (Or.inl rfl)]
        · rw [if_neg h3]
          by_cases h4 : a₁ = a₂
          · rw [if_pos (Or.inr h4), if_pos (Or.inr h4.symm), h4]
          · have hL : ¬(a₂ = 1 ∨ a₁ = a₂) := by
              rintro (hc | hc)
              · exact h3 hc
              · exact h4 hc
            have hR : ¬(a₁ = 1 ∨ a₂ = a₁) := by
              rintro (hc | hc)
              · exact h2 hc
              · exact h4 hc.symm
            rw [if_neg hL, if_neg hR]
    · rw [if_neg h1, if_neg h1]
      by_cases hA : a₁ = 1 ∨ dim = a₁ <;> by_cases hB : a₂ = 1 ∨ dim = a₂
      · rw [if_pos hA, if_pos hB, bcastStep_some, bcastStep_some,
          if_neg h1, if_neg h1, if_pos hA, if_pos hB]
      · rw [if_pos hA, if_neg hB, bcastStep_some, if_neg h1, if_neg hB]
        rfl
      · rw [if_neg hA, if_pos hB, bcastStep_some, if_neg h1, if_neg hA]
        rfl
      · rw [if_neg hA, if_neg hB]
        rfl

instance : RightCommutative bcastStep := ⟨bcastStep_right_comm⟩

instance : RightCommutative (fun n m : Nat => max n m) :=
  ⟨fun b a₁ a₂ => by
    show max (max b a₁) a₂ = max (max b a₂) a₁
    rw [Nat.max_assoc, Nat.max_comm a₁ a₂, ← Nat.max_assoc]⟩

/-- The maximum rank of a nonempty list of shapes, folded uniformly from 0. -/
def bcastAll (shapes : List (List Int)) : Nat :=
  shapes.foldl (fun n s => if s.length > n then s.length else n) 0

/-- The per-axis fold of `ndarray_broadcast_shapes`, started uniformly from a
current output extent of 1 (absorbing the first shape's extent is the first
step). -/
def bcastAxis (N i : Nat) (shapes : List (List Int)) : Option Int :=
  List.foldl bcastStep (some 1) (shapes.map (fun s => bcastExt N s i))

/-- The maximum-rank fold is invariant under permutation of the shapes. -/
theorem bcastAll_perm {s1 s2 : List (List Int)} (h : s1.Perm s2) :
    bcastAll s1 = bcastAll s2 := by
  unfold bcastAll
  have hstep : (fun (n : Nat) (s : List Int) => if s.length > n then s.length else n) =
      fun (n : Nat) (s : List Int) => max n s.length := by
    funext n s
    by_cases hc : s.length > n
    · rw [if_pos hc, Nat.max_eq_right (Nat.le_of_lt hc)]
    · rw [if_neg hc, Nat.max_eq_left (Nat.le_of_not_lt hc)]
  rw [hstep]
  rw [← List.foldl_map (fun s : List Int => s.length) (fun n m => max n m) s1 0]
  rw [← List.foldl_map (fun s : List Int => s.length) (fun n m => max n m) s2 0]
  exact (h.map _).foldl_eq 0

/-- The per-axis fold is invariant under permutation of the shapes. -/
theorem bcastAxis_perm {s1 s2 : List (List Int)} (N i : Nat) (h : s1.Perm s2) :
    bcastAxis N i s1 = bcastAxis N i s2 :=
  (h.map _).foldl_eq (some 1)

/-- With at least two input shapes, `ndarray_broadcast_shapes` is the uniform
fold: the C initialization `dim = sh[0]-extent` coincides with folding that
extent into the neutral extent 1, and the head-initialized rank maximum
coincides with the 0-initialized one. -/
theorem broadcast_cons2 (a b : List Int) (t : List (List Int)) :
    ndarray_broadcast_shapes (a :: b :: t) =
      (if ((List.range (bcastAll (a :: b :: t))).map
            (fun i => bcastAxis (bcastAll (a :: b :: t)) i (a :: b :: t))).all Option.isSome
       then some ((((List.range (bcastAll (a :: b :: t))).map
            (fun i => bcastAxis (bcastAll (a :: b :: t)) i (a :: b :: t)))).map (fun o => o.getD 0))
       else none) := by
  have hN : bcastMaxDims a.length (b :: t) = bcastAll (a :: b :: t) := by
    unfold bcastMaxDims bcastAll
    simp only [List.foldl_cons]
    rw [show (if a.length > 0 then a.length else 0) = a.length by
      rcases Nat.eq_zero_or_pos a.length with h | h
      · simp [h]
      · rw [if_pos h]]
  simp only [ndarray_broadcast_shapes, hN, bcastAxis, List.map_cons, List.foldl_cons, bcastStep]

/-- C7: for every list of input shapes and every permutation of that list,
`ndarray_broadcast_shapes` returns the same status, and on success the same
broadcast shape. -/
theorem C7_broadcast_perm_invariant (s1 s2 : List (List Int)) (h : s1.Perm s2) :
    ndarray_broadcast_shapes s1 = ndarray_broadcast_shapes s2 := by
  cases s1 with
  | nil =>
    rw [h.symm.eq_nil]
  | cons a t1 =>
    cases t1 with
    | nil =>
      rw [List.perm_singleton.mp h.symm]
    | cons b t =>
      cases s2 with
      | nil =>
        exact absurd h.eq_nil (by simp)
      | cons c u1 =>
        cases u1 with
        | nil =>
          have := h.length_eq
          simp at this
        | cons d u =>
          rw [broadcast_cons2 a b t, broadcast_cons2 c d u]
          have hN : bcastAll (a :: b :: t) = bcastAll (c :: d :: u) := bcastAll_perm h
          rw [hN]
          rw [show (fun i => bcastAxis (bcastAll (c :: d :: u)) i (a :: b :: t)) =
              (fun i => bcastAxis (bcastAll (c :: d :: u)) i (c :: d :: u)) from
            funext (fun i => bcastAxis_perm _ i h)]

/-- C7 witness: swapping the two shapes of the S1 scenario leaves both the
status and the broadcast shape unchanged. -/
theorem C7_broadcast_perm_invariant_witness :
    ndarray_broadcast_shapes [[8, 1, 6, 1], [7, 1, 5]] =
      ndarray_broadcast_shapes [[7, 1, 5], [8, 1, 6, 1]] :=
  C7_broadcast_perm_invariant _ _ (List.Perm.swap _ _ _)

/-- The `numel` loop with a zero accumulator sticks at zero. -/
theorem numelGo_zero (l : List Int) : numelGo 0 l = 0 := by
  induction l with
  | nil => rfl
  | cons d rest ih =>
    unfold numelGo
    by_cases hd : d < 0
    · rw [if_pos hd]
    · rw [if_neg hd, zero_mul, ih]

/-- A positive `numel` loop value forces every extent to be positive. -/
theorem numelGo_pos (l : List Int) : ∀ n : Int, 0 < numelGo n l → ∀ d ∈ l, 0 < d := by
  induction l with
  | nil => intro n _ d hd; exact absurd hd (List.not_mem_nil d)
  | cons e rest ih =>
    intro n hpos d hd
    unfold numelGo at hpos
    by_cases he : e < 0
    · rw [if_pos he] at hpos; exact absurd hpos (by omega)
    · rw [if_neg he] at hpos
      rcases List.mem_cons.mp hd with h | h
      · subst h
        rcases lt_or_eq_of_le (not_lt.mp he) with h0 | h0
        · exact h0
        · exfalso
          rw [← h0, mul_zero] at hpos
          rw [numelGo_zero] at hpos
          exact absurd hpos (by omega)
      · exact ih (n * e) hpos d h

/-- Over nonnegative extents the `numel` loop is the accumulated product. -/
theorem numelGo_eq_prod (l : List Int) : ∀ n : Int, (∀ d ∈ l, 0 ≤ d) →
    numelGo n l = n * l.prod := by
  induction l with
  | nil => intro n _; rw [List.prod_nil, mul_one]; rfl
  | cons e rest ih =>
    intro n hnn
    unfold numelGo
    rw [if_neg (not_lt.mpr (hnn e (List.mem_cons_self e rest)))]
    rw [ih (n * e) (fun d hd => hnn d (List.mem_cons_of_mem e hd))]
    rw [List.prod_cons, mul_assoc]

/-- A positive element count means: the shape is nonempty, every extent is
positive, and the count is the plain product of the shape. -/
theorem ndarray_numel_pos_iff (shape : List Int) (h : 0 < ndarray_numel shape) :
    shape ≠ [] ∧ (∀ d ∈ shape, 0 < d) ∧ ndarray_numel shape = shape.prod := by
  unfold ndarray_numel at *
  by_cases hlen : shape.length = 0
  · rw [if_pos hlen] at h; exact absurd h (by omega)
  · rw [if_neg hlen] at h ⊢
    have hpos : ∀ d ∈ shape, 0 < d := numelGo_pos shape 1 h
    refine ⟨fun hc => hlen (by rw [hc]; rfl), hpos, ?_⟩
    rw [numelGo_eq_prod shape 1 (fun d hd => le_of_lt (hpos d hd)), one_mul]

/-- The strides produced by the `shape2strides` loop scale multiplicatively:
scaling every output stride by `c` is the loop started at `s * c`. -/
theorem shape2stridesGo_map_mul (c : Int) (l : List Int) : ∀ s : Int,
    (shape2stridesGo s l).map (fun x => x * c) = shape2stridesGo (s * c) l := by
  induction l with
  | nil => intro s; rfl
  | cons d rest ih =>
    intro s
    unfold shape2stridesGo
    rw [List.map_cons, ih (s * d)]
    rw [show s * d * c = s * c * d by ring]

/-- Appending an axis to the `shape2strides` loop appends the running
product. -/
theorem shape2stridesGo_append (l : List Int) : ∀ (s : Int) (x : Int),
    shape2stridesGo s (l ++ [x]) = shape2stridesGo s l ++ [s * l.prod] := by
  induction l with
  | nil => intro s x; rw [List.prod_nil, mul_one]; rfl
  | cons d rest ih =>
    intro s x
    show s :: shape2stridesGo (s * d) (rest ++ [x]) = s :: shape2stridesGo (s * d) rest ++ [s * (d :: rest).prod]
    rw [ih (s * d) x, List.prod_cons, mul_assoc]
    rfl

/-- Cons-step structure of the row-major natural strides: the stride of the
leading axis is the product of the remaining extents. -/
theorem shape2strides_row_cons (d : Int) (rest : List Int) :
    ndarray_shape2strides (d :: rest) NDARRAY_ROW_MAJOR =
      rest.prod :: ndarray_shape2strides rest NDARRAY_ROW_MAJOR := by
  unfold ndarray_shape2strides
  rw [List.reverse_cons, shape2stridesGo_append, List.reverse_append]
  rw [List.prod_reverse, one_mul]
  rfl

/-- Over a shape of positive extents and column-major natural strides started
at a nonnegative multiplier `m`, the minmax loop leaves the minimum untouched
and pushes the maximum by `m * (prod - 1)` (telescoping sum). -/
theorem minmaxGo_nat_col (shape : List Int) : ∀ (m off mn mx : Int),
    (∀ d ∈ shape, 0 < d) → 0 ≤ m →
    minmaxGo off (shape.zip (shape2stridesGo m shape)) mn mx =
      (mn, mx + m * (shape.prod - 1)) := by
  induction shape with
  | nil =>
    intro m off mn mx _ _
    rw [List.prod_nil]
    show (mn, mx) = (mn, mx + m * (1 - 1))
    rw [show m * (1 - 1) = 0 by ring, add_zero]
  | cons d rest ih =>
    intro m off mn mx hpos hm
    have hd : 0 < d := hpos d (List.mem_cons_self d rest)
    show minmaxGo off ((d, m) :: rest.zip (shape2stridesGo (m * d) rest)) mn mx =
      (mn, mx + m * ((d :: rest).prod - 1))
    unfold minmaxGo
    rw [if_neg (by omega : ¬ d = 0)]
    rcases lt_or_eq_of_le hm with hm0 | hm0
    · rw [if_pos hm0]
      rw [ih (m * d) off mn (mx + m * (d - 1)) (fun x hx => hpos x (List.mem_cons_of_mem d hx))
        (by positivity)]
      rw [List.prod_cons]
      congr 1
      ring
    · rw [if_neg (by omega : ¬ (0:Int) < m), if_neg (by omega : ¬ m < 0)]
      rw [ih (m * d) off mn mx (fun x hx => hpos x (List.mem_cons_of_mem d hx)) (by positivity)]
      rw [List.prod_cons, ← hm0]
      congr 1
      ring

/-- Same telescoping for row-major natural strides scaled by a nonnegative
byte width `c`. -/
theorem minmaxGo_nat_row (shape : List Int) : ∀ (c off mn mx : Int),
    (∀ d ∈ shape, 0 < d) → 0 ≤ c →
    minmaxGo off (shape.zip ((ndarray_shape2strides shape NDARRAY_ROW_MAJOR).map
        (fun x => x * c))) mn mx =
      (mn, mx + c * (shape.prod - 1)) := by
  induction shape with
  | nil =>
    intro c off mn mx _ _
    rw [List.prod_nil]
    show (mn, mx) = (mn, mx + c * (1 - 1))
    rw [show c * (1 - 1) = 0 by ring, add_zero]
  | cons d rest ih =>
    intro c off mn mx hpos hc
    have hd : 0 < d := hpos d (List.mem_cons_self d rest)
    have hrest : ∀ x ∈ rest, (0:Int) < x := fun x hx => hpos x (List.mem_cons_of_mem d hx)
    have hprod : 0 < rest.prod := List.prod_pos hrest
    rw [shape2strides_row_cons, List.map_cons]
    show minmaxGo off ((d, rest.prod * c) ::
        rest.zip ((ndarray_shape2strides rest NDARRAY_ROW_MAJOR).map (fun x => x * c))) mn mx =
      (mn, mx + c * ((d :: rest).prod - 1))
    unfold minmaxGo
    rw [if_neg (by omega : ¬ d = 0)]
    rcases lt_or_eq_of_le hc with hc0 | hc0
    · rw [if_pos (by positivity : (0:Int) < rest.prod * c)]
      rw [ih c off mn (mx + rest.prod * c * (d - 1)) hrest hc]
      rw [List.prod_cons]
      congr 1
      ring
    · rw [← hc0]
      rw [if_neg (by simp : ¬ (0:Int) < rest.prod * 0), if_neg (by simp : ¬ rest.prod * 0 < 0)]
      rw [ih 0 off mn mx hrest le_rfl]
      rw [List.prod_cons]
      congr 1
      ring

/-- Every stride emitted for nonnegative multipliers over positive extents is
nonnegative. -/
theorem shape2stridesGo_nonneg (l : List Int) : ∀ m : Int, (∀ d ∈ l, 0 < d) → 0 ≤ m →
    ∀ s ∈ shape2stridesGo m l, 0 ≤ s := by
  induction l with
  | nil => intro m _ _ s hs; exact absurd hs (List.not_mem_nil s)
  | cons d rest ih =>
    intro m hpos hm s hs
    rcases List.mem_cons.mp hs with h | h
    · omega
    · exact ih (m * d)
        (fun x hx => hpos x (List.mem_cons_of_mem d hx))
        (mul_nonneg hm (le_of_lt (hpos d (List.mem_cons_self d rest)))) s h

/-- The natural strides of either order, scaled by a nonnegative width, are
all nonnegative. -/
theorem natural_strides_nonneg (shape : List Int) (order : NDARRAY_ORDER) (c : Int)
    (hpos : ∀ d ∈ shape, 0 < d) (hc : 0 ≤ c) :
    ∀ s ∈ (ndarray_shape2strides shape order).map (fun x => x * c), 0 ≤ s := by
  intro s hs
  rcases List.mem_map.mp hs with ⟨x, hx, hxs⟩
  have hx0 : 0 ≤ x := by
    cases order with
    | NDARRAY_COLUMN_MAJOR =>
      exact shape2stridesGo_nonneg shape 1 hpos (by omega) x hx
    | NDARRAY_ROW_MAJOR =>
      unfold ndarray_shape2strides at hx
      rw [List.mem_reverse] at hx
      refine shape2stridesGo_nonneg shape.reverse 1 ?_ (by omega) x hx
      intro d hd
      exact hpos d (List.mem_reverse.mp hd)
  rw [← hxs]
  exact mul_nonneg hx0 hc

/-- A stride vector without negative entries has iteration order 1. -/
theorem iteration_order_nonneg (strides : List Int) (h : ∀ s ∈ strides, 0 ≤ s) :
    ndarray_iteration_order strides = 1 := by
  unfold ndarray_iteration_order
  rw [List.countP_eq_zero.mpr ?_]
  · rfl
  · intro s hs
    simpa using not_lt.mpr (h s hs)

/-- Along a weakly descending (in magnitude) stride tail the row-major bit of
the `strides2order` loop survives: the result is 1 or 3. -/
theorem strides2orderGo_desc (l : List Int) : ∀ (a : Int) (col : Bool),
    List.Chain (fun x y => |y| ≤ |x|) a l →
    strides2orderGo |a| true col l = 1 ∨ strides2orderGo |a| true col l = 3 := by
  induction l with
  | nil =>
    intro a col _
    cases col
    · left; rfl
    · right; rfl
  | cons s rest ih =>
    intro a col hchain
    rw [List.chain_cons] at hchain
    obtain ⟨hle, hchain⟩ := hchain
    show strides2orderGo |a| true col (s :: rest) = 1 ∨ _
    simp only [strides2orderGo]
    by_cases h1 : (col && decide (|s| < |a|)) = true
    · rw [if_pos h1, if_pos (by simp : (true || false) = true)]
      exact ih s false hchain
    · rw [if_neg h1,
        if_neg (by
          simp only [Bool.true_and, decide_eq_true_eq, gt_iff_lt, not_lt]
          exact hle),
        if_pos (by simp : (true || col) = true)]
      exact ih s col hchain

/-- Along a weakly ascending (in magnitude) stride tail the column-major bit
of the `strides2order` loop survives: the result is 2 or 3. -/
theorem strides2orderGo_asc (l : List Int) : ∀ (a : Int) (row : Bool),
    List.Chain (fun x y => |x| ≤ |y|) a l →
    strides2orderGo |a| row true l = 2 ∨ strides2orderGo |a| row true l = 3 := by
  induction l with
  | nil =>
    intro a row _
    cases row
    · left; rfl
    · right; rfl
  | cons s rest ih =>
    intro a row hchain
    rw [List.chain_cons] at hchain
    obtain ⟨hle, hchain⟩ := hchain
    show strides2orderGo |a| row true (s :: rest) = 2 ∨ _
    simp only [strides2orderGo]
    rw [if_neg (by
      simp only [Bool.true_and, decide_eq_true_eq, not_lt]
      exact hle)]
    by_cases h2 : (row && decide (|s| > |a|)) = true
    · rw [if_pos h2, if_pos (by simp : (false || true) = true)]
      exact ih s false hchain
    · rw [if_neg h2, if_pos (by simp : (row || true) = true)]
      exact ih s row hchain

/-- The scaled row-major natural strides of a positive shape have weakly
descending magnitudes. -/
theorem natural_row_chain (shape : List Int) (c : Int) (hc : 0 ≤ c) :
    (∀ d ∈ shape, 0 < d) →
    List.Chain' (fun x y => |y| ≤ |x|)
      ((ndarray_shape2strides shape NDARRAY_ROW_MAJOR).map (fun x => x * c)) := by
  induction shape with
  | nil => intro _; exact List.chain'_nil
  | cons d rest ih =>
    intro hpos
    have hrest : ∀ x ∈ rest, (0:Int) < x := fun x hx => hpos x (List.mem_cons_of_mem d hx)
    rw [shape2strides_row_cons, List.map_cons]
    cases rest with
    | nil => exact List.chain'_singleton _
    | cons e rest' =>
      have hrest' : ∀ x ∈ rest', (0:Int) < x :=
        fun x hx => hrest x (List.mem_cons_of_mem e hx)
      have he : (0:Int) < e := hrest e (List.mem_cons_self e rest')
      have hp' : (0:Int) < rest'.prod := List.prod_pos hrest'
      rw [shape2strides_row_cons, List.map_cons]
      refine List.chain'_cons.mpr ⟨?_, ?_⟩
      · have h1 : (0:Int) ≤ rest'.prod * c := by positivity
        have h2 : (0:Int) ≤ (e :: rest').prod * c := by
          rw [List.prod_cons]
          positivity
        rw [abs_of_nonneg h1, abs_of_nonneg h2, List.prod_cons, mul_assoc]
        exact le_mul_of_one_le_left h1 (by omega)
      · have := ih hrest
        rw [shape2strides_row_cons, List.map_cons] at this
        exact this

/-- The column-major natural-stride loop over a positive shape, started at a
nonnegative multiplier, produces weakly ascending magnitudes. -/
theorem natural_col_chain (l : List Int) : ∀ m : Int, 0 ≤ m → (∀ d ∈ l, 0 < d) →
    List.Chain' (fun x y => |x| ≤ |y|) (shape2stridesGo m l) := by
  induction l with
  | nil => intro m _ _; exact List.chain'_nil
  | cons d rest ih =>
    intro m hm hpos
    have hd : 0 < d := hpos d (List.mem_cons_self d rest)
    have hrest : ∀ x ∈ rest, (0:Int) < x := fun x hx => hpos x (List.mem_cons_of_mem d hx)
    show List.Chain' _ (m :: shape2stridesGo (m * d) rest)
    cases rest with
    | nil => exact List.chain'_singleton _
    | cons e rest' =>
      refine List.chain'_cons.mpr ⟨?_, ?_⟩
      · rw [abs_of_nonneg hm, abs_of_nonneg (by positivity : (0:Int) ≤ m * d)]
        exact le_mul_of_one_le_right hm (by omega)
      · exact ih (m * d) (by positivity) hrest

/-- The byte width of every dtype is nonnegative. -/
theorem ndarray_bytes_per_element_nonneg (dtype : Int) :
    0 ≤ ndarray_bytes_per_element dtype := by
  unfold ndarray_bytes_per_element
  omega

/-- For scaled row-major natural strides over a nonempty positive shape,
`strides2order` reports row-major or both. -/
theorem strides2order_natural_row (shape : List Int) (c : Int) (hc : 0 ≤ c)
    (hpos : ∀ d ∈ shape, 0 < d) (hne : shape ≠ []) :
    ndarray_strides2order ((ndarray_shape2strides shape NDARRAY_ROW_MAJOR).map
        (fun x => x * c)) = 1 ∨
      ndarray_strides2order ((ndarray_shape2strides shape NDARRAY_ROW_MAJOR).map
        (fun x => x * c)) = 3 := by
  cases shape with
  | nil => exact absurd rfl hne
  | cons d rest =>
    rw [shape2strides_row_cons, List.map_cons]
    show strides2orderGo |rest.prod * c| true true
        ((ndarray_shape2strides rest NDARRAY_ROW_MAJOR).map (fun x => x * c)) = 1 ∨
      strides2orderGo |rest.prod * c| true true
        ((ndarray_shape2strides rest NDARRAY_ROW_MAJOR).map (fun x => x * c)) = 3
    refine strides2orderGo_desc _ _ true ?_
    have := natural_row_chain (d :: rest) c hc hpos
    rw [shape2strides_row_cons, List.map_cons] at this
    exact this

/-- For scaled column-major natural strides over a nonempty positive shape,
`strides2order` reports column-major or both. -/
theorem strides2order_natural_col (shape : List Int) (c : Int) (hc : 0 ≤ c)
    (hpos : ∀ d ∈ shape, 0 < d) (hne : shape ≠ []) :
    ndarray_strides2order ((ndarray_shape2strides shape NDARRAY_COLUMN_MAJOR).map
        (fun x => x * c)) = 2 ∨
      ndarray_strides2order ((ndarray_shape2strides shape NDARRAY_COLUMN_MAJOR).map
        (fun x => x * c)) = 3 := by
  cases shape with
  | nil => exact absurd rfl hne
  | cons d rest =>
    have hmap : (ndarray_shape2strides (d :: rest) NDARRAY_COLUMN_MAJOR).map (fun x => x * c) =
        shape2stridesGo c (d :: rest) := by
      show (shape2stridesGo 1 (d :: rest)).map (fun x => x * c) = _
      rw [shape2stridesGo_map_mul, one_mul]
    rw [hmap]
    show strides2orderGo |c| true true (shape2stridesGo (c * d) rest) = 2 ∨
      strides2orderGo |c| true true (shape2stridesGo (c * d) rest) = 3
    exact strides2orderGo_asc _ c true (natural_col_chain (d :: rest) c hc hpos)

/-- Over a nonempty positive shape with natural strides scaled by the byte
width and zero offset, the contiguity test of `ndarray_flags` succeeds and the
flags are the branch on `strides2order`. -/
theorem ndarray_flags_of_natural (shape : List Int) (order : NDARRAY_ORDER) (c : Int)
    (hc : 0 ≤ c) (hpos : ∀ d ∈ shape, 0 < d) (hne : shape ≠ []) :
    ndarray_flags_of shape.prod shape
        ((ndarray_shape2strides shape order).map (fun x => x * c)) 0 c =
      (if ndarray_strides2order ((ndarray_shape2strides shape order).map (fun x => x * c)) = 2 ∨
          ndarray_strides2order ((ndarray_shape2strides shape order).map (fun x => x * c)) = 3
       then flagOr (if ndarray_strides2order ((ndarray_shape2strides shape order).map
              (fun x => x * c)) = 1 ∨
            ndarray_strides2order ((ndarray_shape2strides shape order).map (fun x => x * c)) = 3
          then flagOr 0 NDARRAY_ROW_MAJOR_CONTIGUOUS_FLAG else 0) NDARRAY_COLUMN_MAJOR_CONTIGUOUS_FLAG
       else (if ndarray_strides2order ((ndarray_shape2strides shape order).map
              (fun x => x * c)) = 1 ∨
            ndarray_strides2order ((ndarray_shape2strides shape order).map (fun x => x * c)) = 3
          then flagOr 0 NDARRAY_ROW_MAJOR_CONTIGUOUS_FLAG else 0)) := by
  have hprod : 0 < shape.prod := List.prod_pos hpos
  have hio : ndarray_iteration_order
      ((ndarray_shape2strides shape order).map (fun x => x * c)) = 1 :=
    iteration_order_nonneg _ (natural_strides_nonneg shape order c hpos hc)
  have hminmax : ndarray_minmax_view_buffer_index shape
      ((ndarray_shape2strides shape order).map (fun x => x * c)) 0 =
        (0, 0 + c * (shape.prod - 1)) := by
    unfold ndarray_minmax_view_buffer_index
    cases order with
    | NDARRAY_ROW_MAJOR => exact minmaxGo_nat_row shape c 0 0 0 hpos hc
    | NDARRAY_COLUMN_MAJOR =>
      show minmaxGo 0 (shape.zip ((shape2stridesGo 1 shape).map (fun x => x * c))) 0 0 = _
      rw [shape2stridesGo_map_mul, one_mul]
      exact minmaxGo_nat_col shape c 0 0 0 hpos hc
  unfold ndarray_flags_of
  rw [hminmax]
  have hnotor : ¬ (shape.prod = 0 ∨ ndarray_iteration_order
      ((ndarray_shape2strides shape order).map (fun x => x * c)) = 0) := by
    rw [hio]
    rintro (h0 | h0) <;> omega
  rw [if_neg hnotor]
  have heq : shape.prod * c = (0 + c * (shape.prod - 1) - 0) + c := by ring
  rw [decide_eq_true heq]
  rfl

/-- C5 counterexample: for shape `[0]`, dtype uint8, natural strides scaled by
the byte width and offset 0, the allocator computes flags 0 — neither
contiguity bit is set, because a zero element count forces `flags = 0`.  The
claim as stated (with no `length > 0` proviso on its first part) demands the
row-major bit. -/
theorem C5_zero_length_counterexample :
    (ndarray_allocate 2 0 [0]
        ((ndarray_shape2strides [0] NDARRAY_ROW_MAJOR).map
          (fun x => x * ndarray_bytes_per_element 2))
        0 NDARRAY_ROW_MAJOR NDARRAY_INDEX_ERROR [NDARRAY_INDEX_ERROR]).flags = 0 ∧
      flagAnd (ndarray_allocate 2 0 [0]
        ((ndarray_shape2strides [0] NDARRAY_ROW_MAJOR).map
          (fun x => x * ndarray_bytes_per_element 2))
        0 NDARRAY_ROW_MAJOR NDARRAY_INDEX_ERROR [NDARRAY_INDEX_ERROR]).flags
        NDARRAY_ROW_MAJOR_CONTIGUOUS_FLAG = 0 := by
  decide

/-- Flag bit corresponding to an order. -/
def orderFlag : NDARRAY_ORDER → Int
  | NDARRAY_ROW_MAJOR => NDARRAY_ROW_MAJOR_CONTIGUOUS_FLAG
  | NDARRAY_COLUMN_MAJOR => NDARRAY_COLUMN_MAJOR_CONTIGUOUS_FLAG

/-- For a one-dimensional shape the scaled natural strides are the singleton
`[c]`, and `strides2order` reports "both". -/
theorem strides2order_natural_single (d c : Int) (order : NDARRAY_ORDER) :
    ndarray_strides2order ((ndarray_shape2strides [d] order).map (fun x => x * c)) = 3 := by
  cases order <;> rfl

/-- C5 as amended: for every descriptor whose strides equal the natural
strides `shape_to_strides(shape, order)` scaled by `width(dtype)` and whose
offset is 0, provided the element count is positive, the flag computed at
construction has the bit corresponding to `order` set; and if `ndims ≤ 1`
(with the element count positive) both bits are set. -/
theorem C5_natural_strides_flags (dtype data : Int) (shape : List Int) (order : NDARRAY_ORDER)
    (imode : NDARRAY_INDEX_MODE) (submodes : List NDARRAY_INDEX_MODE)
    (h : 0 < ndarray_numel shape) :
    flagAnd (ndarray_allocate dtype data shape
        ((ndarray_shape2strides shape order).map (fun x => x * ndarray_bytes_per_element dtype))
        0 order imode submodes).flags (orderFlag order) ≠ 0 ∧
    (shape.length ≤ 1 →
      flagAnd (ndarray_allocate dtype data shape
        ((ndarray_shape2strides shape order).map (fun x => x * ndarray_bytes_per_element dtype))
        0 order imode submodes).flags NDARRAY_ROW_MAJOR_CONTIGUOUS_FLAG ≠ 0 ∧
      flagAnd (ndarray_allocate dtype data shape
        ((ndarray_shape2strides shape order).map (fun x => x * ndarray_bytes_per_element dtype))
        0 order imode submodes).flags NDARRAY_COLUMN_MAJOR_CONTIGUOUS_FLAG ≠ 0) := by
  obtain ⟨hne, hpos, hnumel⟩ := ndarray_numel_pos_iff shape h
  have hc : 0 ≤ ndarray_bytes_per_element dtype := ndarray_bytes_per_element_nonneg dtype
  have hflags : (ndarray_allocate dtype data shape
      ((ndarray_shape2strides shape order).map (fun x => x * ndarray_bytes_per_element dtype))
      0 order imode submodes).flags =
    ndarray_flags_of shape.prod shape
      ((ndarray_shape2strides shape order).map (fun x => x * ndarray_bytes_per_element dtype))
      0 (ndarray_bytes_per_element dtype) := by
    rw [← hnumel]
    rfl
  rw [hflags, ndarray_flags_of_natural shape order (ndarray_bytes_per_element dtype) hc hpos hne]
  constructor
  · cases order with
    | NDARRAY_ROW_MAJOR =>
      rcases strides2order_natural_row shape (ndarray_bytes_per_element dtype) hc hpos hne with
        hord | hord <;> rw [hord] <;> decide
    | NDARRAY_COLUMN_MAJOR =>
      rcases strides2order_natural_col shape (ndarray_bytes_per_element dtype) hc hpos hne with
        hord | hord <;> rw [hord] <;> decide
  · intro hlen
    obtain ⟨d, hd⟩ : ∃ d, shape = [d] := by
      cases shape with
      | nil => exact absurd rfl hne
      | cons d rest =>
        cases rest with
        | nil => exact ⟨d, rfl⟩
        | cons e rest' => simp at hlen
    subst hd
    rw [strides2order_natural_single d (ndarray_bytes_per_element dtype) order]
    decide

/-- C5 witness: a uint8 10×10 row-major natural view gets the row-major bit,
and a one-dimensional float64 view of extent 5 gets both bits. -/
theorem C5_natural_strides_flags_witness :
    flagAnd (ndarray_allocate 2 0 [10, 10]
        ((ndarray_shape2strides [10, 10] NDARRAY_ROW_MAJOR).map
          (fun x => x * ndarray_bytes_per_element 2))
        0 NDARRAY_ROW_MAJOR NDARRAY_INDEX_ERROR [NDARRAY_INDEX_ERROR]).flags
      (orderFlag NDARRAY_ROW_MAJOR) ≠ 0 ∧
    (flagAnd (ndarray_allocate 17 0 [5]
        ((ndarray_shape2strides [5] NDARRAY_COLUMN_MAJOR).map
          (fun x => x * ndarray_bytes_per_element 17))
        0 NDARRAY_COLUMN_MAJOR NDARRAY_INDEX_ERROR [NDARRAY_INDEX_ERROR]).flags
      NDARRAY_ROW_MAJOR_CONTIGUOUS_FLAG ≠ 0 ∧
     flagAnd (ndarray_allocate 17 0 [5]
        ((ndarray_shape2strides [5] NDARRAY_COLUMN_MAJOR).map
          (fun x => x * ndarray_bytes_per_element 17))
        0 NDARRAY_COLUMN_MAJOR NDARRAY_INDEX_ERROR [NDARRAY_INDEX_ERROR]).flags
      NDARRAY_COLUMN_MAJOR_CONTIGUOUS_FLAG ≠ 0) :=
  ⟨(C5_natural_strides_flags 2 0 [10, 10] NDARRAY_ROW_MAJOR NDARRAY_INDEX_ERROR
      [NDARRAY_INDEX_ERROR] (by decide)).1,
   (C5_natural_strides_flags 17 0 [5] NDARRAY_COLUMN_MAJOR NDARRAY_INDEX_ERROR
      [NDARRAY_INDEX_ERROR] (by decide)).2 (by decide)⟩

/-- C1 counterexample: for the view shape `[2,2]`, strides `[1,2]`, offset 0,
row-major, error mode — strides that are not the natural strides of the order —
the round trip maps view index 1 to buffer index 2 and back to view index 2,
not 1. -/
theorem C1_roundtrip_counterexample :
    ndarray_bind2vind [2, 2] [1, 2] 0 NDARRAY_ROW_MAJOR
      (ndarray_vind2bind [2, 2] [1, 2] 0 NDARRAY_ROW_MAJOR 1 NDARRAY_INDEX_ERROR)
      NDARRAY_INDEX_ERROR ≠ 1 := by
  decide

/-- An in-range index passes the shared mode-normalization prologue
unchanged, in every index mode. -/
theorem vindexAdjust_in_range (len idx : Int) (mode : NDARRAY_INDEX_MODE)
    (h0 : 0 ≤ idx) (h1 : idx < len) : vindexAdjust len idx mode = some idx := by
  cases mode with
  | NDARRAY_INDEX_ERROR =>
    show (if idx < 0 ∨ idx ≥ len then none else some idx) = some idx
    rw [if_neg (by omega)]
  | NDARRAY_INDEX_CLAMP =>
    show some (if idx < 0 then 0 else if idx ≥ len then len - 1 else idx) = some idx
    rw [if_neg (by omega : ¬ idx < 0), if_neg (by omega : ¬ idx ≥ len)]
  | NDARRAY_INDEX_WRAP =>
    show some (if idx < 0 then _ else if idx ≥ len then _ else idx) = some idx
    rw [if_neg (by omega : ¬ idx < 0), if_neg (by omega : ¬ idx ≥ len)]

/-- The vind2bind digit loop consumes appended pair lists sequentially. -/
theorem vind2bindLoop_append (l1 l2 : List (Int × Int)) : ∀ p : Int × Int,
    vind2bindLoop (l1 ++ l2) p = vind2bindLoop l2 (vind2bindLoop l1 p) := by
  induction l1 with
  | nil => intro p; rfl
  | cons hd tl ih =>
    intro p
    obtain ⟨d, st⟩ := hd
    obtain ⟨idx, ind⟩ := p
    show vind2bindLoop (tl ++ l2) _ = _
    rw [ih]
    rfl

/-- Unfolding equation of the bind2vind loop on a cons cell. -/
theorem bind2vindLoop_cons (d st : Int) (rest : List (Int × Int)) (idx ind : Int) :
    bind2vindLoop ((d, st) :: rest) (idx, ind) =
      (if st < 0 then
        bind2vindLoop rest (idx - Int.tdiv idx st * st, ind + (Int.tdiv idx st + (d - 1)) * |st|)
       else
        bind2vindLoop rest (idx - Int.tdiv idx st * st, ind + Int.tdiv idx st * |st|)) := rfl

/-- The bind2vind stride-division loop consumes appended pair lists
sequentially. -/
theorem bind2vindLoop_append (l1 l2 : List (Int × Int)) : ∀ p : Int × Int,
    bind2vindLoop (l1 ++ l2) p = bind2vindLoop l2 (bind2vindLoop l1 p) := by
  induction l1 with
  | nil => intro p; rfl
  | cons hd tl ih =>
    intro p
    obtain ⟨d, st⟩ := hd
    obtain ⟨idx, ind⟩ := p
    show bind2vindLoop ((d, st) :: (tl ++ l2)) (idx, ind) = _
    rw [bind2vindLoop_cons, bind2vindLoop_cons]
    by_cases hst : st < 0
    · rw [if_pos hst, if_pos hst, ih]
    · rw [if_neg hst, if_neg hst, ih]

/-- Mixed-radix split of Euclidean division and remainder by a product of two
positive factors, for a nonnegative dividend. -/
theorem int_ediv_emod_mul (i d R : Int) (hi : 0 ≤ i) (hd : 0 < d) (hR : 0 < R) :
    i / (d * R) = (i / d) / R ∧ i % (d * R) = i % d + d * ((i / d) % R) := by
  have hb : 0 < d * R := by positivity
  have h1 : i % d < d := Int.emod_lt_of_pos i hd
  have h2 : (i / d) % R < R := Int.emod_lt_of_pos (i / d) hR
  have h3 : 0 ≤ i % d := Int.emod_nonneg i (by omega)
  have h4 : 0 ≤ (i / d) % R := Int.emod_nonneg (i / d) (by omega)
  have h5 : d * ((i / d) % R) ≤ d * (R - 1) :=
    mul_le_mul_of_nonneg_left (by omega) (le_of_lt hd)
  have h7 : i % d + d * ((i / d) % R) < d * R := by
    calc i % d + d * ((i / d) % R) ≤ (d - 1) + d * (R - 1) :=
          add_le_add (by omega) h5
      _ = d * R - 1 := by ring
      _ < d * R := by omega
  have heq : (i % d + d * ((i / d) % R)) + d * R * ((i / d) / R) = i := by
    have ha := Int.ediv_add_emod i d
    have hb2 := Int.ediv_add_emod (i / d) R
    calc (i % d + d * ((i / d) % R)) + d * R * ((i / d) / R)
        = d * (R * ((i / d) / R) + (i / d) % R) + i % d := by ring
      _ = d * (i / d) + i % d := by rw [hb2]
      _ = i := by omega
  have h8 : 0 ≤ d * ((i / d) % R) := mul_nonneg (le_of_lt hd) h4
  have := (@Int.ediv_emod_unique i (d * R) (i % d + d * ((i / d) % R)) ((i / d) / R) hb).mpr
    ⟨heq, add_nonneg h3 h8, h7⟩
  exact ⟨this.1, this.2⟩

/-- Digit loop over column-major natural strides started at multiplier `m`:
the state decomposes a nonnegative index into quotient and scaled remainder by
the shape product. -/
theorem vind2bindLoop_nat_col (shape : List Int) : ∀ (m i ind : Int),
    (∀ d ∈ shape, 0 < d) → 0 ≤ i →
    vind2bindLoop (shape.zip (shape2stridesGo m shape)) (i, ind) =
      (i / shape.prod, ind + m * (i % shape.prod)) := by
  induction shape with
  | nil =>
    intro m i ind _ _
    show (i, ind) = _
    rw [List.prod_nil, Int.ediv_one, Int.emod_one, mul_zero, add_zero]
  | cons d rest ih =>
    intro m i ind hpos hi
    have hd : 0 < d := hpos d (List.mem_cons_self d rest)
    have hR : 0 < rest.prod := List.prod_pos (fun x hx => hpos x (List.mem_cons_of_mem d hx))
    show vind2bindLoop (rest.zip (shape2stridesGo (m * d) rest))
        (Int.tdiv (i - Int.tmod i d) d, ind + Int.tmod i d * m) = _
    have htm : Int.tmod i d = i % d := Int.tmod_eq_emod hi (le_of_lt hd)
    have hsub : i - i % d = d * (i / d) := by
      have h0 := Int.ediv_add_emod i d
      omega
    have htd : Int.tdiv (i - i % d) d = i / d := by
      rw [hsub, Int.mul_tdiv_cancel_left _ (ne_of_gt hd)]
    rw [htm, htd]
    rw [ih (m * d) (i / d) (ind + i % d * m)
      (fun x hx => hpos x (List.mem_cons_of_mem d hx)) (Int.ediv_nonneg hi (le_of_lt hd))]
    obtain ⟨hdiv, hmod⟩ := int_ediv_emod_mul i d rest.prod hi hd hR
    rw [List.prod_cons, hdiv, hmod]
    simp only [Prod.mk.injEq]
    exact ⟨by trivial, by ring⟩

/-- Digit loop over row-major natural strides (visited from the last axis to
the first): the state decomposes a nonnegative index into quotient and
remainder by the shape product. -/
theorem vind2bindLoop_nat_row (shape : List Int) : ∀ (i ind : Int),
    (∀ d ∈ shape, 0 < d) → 0 ≤ i →
    vind2bindLoop ((shape.zip (ndarray_shape2strides shape NDARRAY_ROW_MAJOR)).reverse) (i, ind) =
      (i / shape.prod, ind + i % shape.prod) := by
  induction shape with
  | nil =>
    intro i ind _ _
    show (i, ind) = _
    rw [List.prod_nil, Int.ediv_one, Int.emod_one, add_zero]
  | cons d rest ih =>
    intro i ind hpos hi
    have hd : 0 < d := hpos d (List.mem_cons_self d rest)
    have hR : 0 < rest.prod := List.prod_pos (fun x hx => hpos x (List.mem_cons_of_mem d hx))
    rw [shape2strides_row_cons]
    show vind2bindLoop (((d, rest.prod) ::
        rest.zip (ndarray_shape2strides rest NDARRAY_ROW_MAJOR)).reverse) (i, ind) = _
    rw [List.reverse_cons, vind2bindLoop_append]
    rw [ih i ind (fun x hx => hpos x (List.mem_cons_of_mem d hx)) hi]
    have hq : 0 ≤ i / rest.prod := Int.ediv_nonneg hi (le_of_lt hR)
    show vind2bindLoop [] (Int.tdiv (i / rest.prod - Int.tmod (i / rest.prod) d) d,
        ind + i % rest.prod + Int.tmod (i / rest.prod) d * rest.prod) = _
    have htm : Int.tmod (i / rest.prod) d = (i / rest.prod) % d :=
      Int.tmod_eq_emod hq (le_of_lt hd)
    have hsub : i / rest.prod - (i / rest.prod) % d = d * ((i / rest.prod) / d) := by
      have h0 := Int.ediv_add_emod (i / rest.prod) d
      omega
    have htd : Int.tdiv (i / rest.prod - (i / rest.prod) % d) d =
        (i / rest.prod) / d := by
      rw [hsub, Int.mul_tdiv_cancel_left _ (ne_of_gt hd)]
    rw [htm, htd]
    obtain ⟨hdiv, hmod⟩ := int_ediv_emod_mul i rest.prod d hi hR hd
    rw [show ∀ p : Int × Int, vind2bindLoop [] p = p from fun _ => rfl]
    rw [List.prod_cons, show d * rest.prod = rest.prod * d by ring, hdiv, hmod]
    simp only [Prod.mk.injEq]
    exact ⟨by trivial, by ring⟩

/-- Stride-division loop over row-major natural strides (largest stride
first): a nonnegative buffer index over a nonempty positive shape is fully
reassembled into the view accumulator. -/
theorem bind2vindLoop_nat_row (shape : List Int) : ∀ (i ind : Int),
    (∀ d ∈ shape, 0 < d) → 0 ≤ i → shape ≠ [] →
    bind2vindLoop (shape.zip (ndarray_shape2strides shape NDARRAY_ROW_MAJOR)) (i, ind) =
      (0, ind + i) := by
  induction shape with
  | nil => intro i ind _ _ hne; exact absurd rfl hne
  | cons d rest ih =>
    intro i ind hpos hi _
    have hR : 0 < rest.prod := List.prod_pos (fun x hx => hpos x (List.mem_cons_of_mem d hx))
    rw [shape2strides_row_cons]
    show bind2vindLoop ((d, rest.prod) ::
        rest.zip (ndarray_shape2strides rest NDARRAY_ROW_MAJOR)) (i, ind) = _
    rw [bind2vindLoop_cons, if_neg (by omega : ¬ rest.prod < 0)]
    have htd : Int.tdiv i rest.prod = i / rest.prod := Int.tdiv_eq_ediv hi (le_of_lt hR)
    have hsub : i - i / rest.prod * rest.prod = i % rest.prod := by
      have h0 := Int.ediv_add_emod i rest.prod
      have h1 : i / rest.prod * rest.prod = rest.prod * (i / rest.prod) := by ring
      omega
    have habs : |rest.prod| = rest.prod := abs_of_nonneg (le_of_lt hR)
    rw [htd, habs, hsub]
    cases rest with
    | nil =>
      show ((i % List.prod [], ind + i / List.prod [] * List.prod []) : Int × Int) = (0, ind + i)
      simp
    | cons e rest' =>
      rw [ih (i % (e :: rest').prod) (ind + i / (e :: rest').prod * (e :: rest').prod)
        (fun x hx => hpos x (List.mem_cons_of_mem d hx))
        (Int.emod_nonneg i (by omega)) (by simp)]
      simp only [Prod.mk.injEq]
      refine ⟨by trivial, ?_⟩
      have h0 := Int.ediv_add_emod i ((e :: rest').prod)
      have h1 : i / (e :: rest').prod * (e :: rest').prod =
          (e :: rest').prod * (i / (e :: rest').prod) := by ring
      omega

/-- Stride-division loop over column-major natural strides with multiplier
`m`, visited largest stride first: a buffer index below `m * prod` leaves the
remainder modulo `m` and reassembles the rest into the view accumulator. -/
theorem bind2vindLoop_nat_col (shape : List Int) : ∀ (m i ind : Int),
    (∀ d ∈ shape, 0 < d) → 0 < m → 0 ≤ i → i < m * shape.prod →
    bind2vindLoop ((shape.zip (shape2stridesGo m shape)).reverse) (i, ind) =
      (i % m, ind + (i - i % m)) := by
  induction shape with
  | nil =>
    intro m i ind _ hm hi hlt
    rw [List.prod_nil, mul_one] at hlt
    show ((i, ind) : Int × Int) = _
    rw [Int.emod_eq_of_lt hi hlt]
    simp
  | cons d rest ih =>
    intro m i ind hpos hm hi hlt
    have hd : 0 < d := hpos d (List.mem_cons_self d rest)
    have hR : 0 < rest.prod := List.prod_pos (fun x hx => hpos x (List.mem_cons_of_mem d hx))
    show bind2vindLoop (((d, m) :: rest.zip (shape2stridesGo (m * d) rest)).reverse) (i, ind) = _
    rw [List.reverse_cons, bind2vindLoop_append]
    rw [ih (m * d) i ind (fun x hx => hpos x (List.mem_cons_of_mem d hx)) (by positivity) hi
      (by rw [List.prod_cons] at hlt
          calc i < m * (d * rest.prod) := hlt
            _ = m * d * rest.prod := by ring)]
    have ha : 0 ≤ i % (m * d) := Int.emod_nonneg i (by positivity)
    rw [bind2vindLoop_cons, if_neg (by omega : ¬ m < 0)]
    have htd : Int.tdiv (i % (m * d)) m = (i % (m * d)) / m := Int.tdiv_eq_ediv ha (le_of_lt hm)
    have habs : |m| = m := abs_of_nonneg (le_of_lt hm)
    rw [htd, habs]
    rw [show ∀ p : Int × Int, bind2vindLoop [] p = p from fun _ => rfl]
    have hmm2 : i % (m * d) % m = i % m := Int.emod_emod_of_dvd i (dvd_mul_right m d)
    have hme := Int.ediv_add_emod (i % (m * d)) m
    have h1 : i % (m * d) / m * m = m * (i % (m * d) / m) := by ring
    simp only [Prod.mk.injEq]
    constructor
    · omega
    · omega

/-- C1 as amended: for every view whose strides are the natural strides
`shape2strides(shape, order)` of its order with offset 0, over a shape of
positive extents, and every view linear index `i` in `[0, length)`,
`ndarray_bind2vind` applied to the result of `ndarray_vind2bind(i)` gives back
`i`, in each of the three index modes.  (For general strides the round trip
fails; see the counterexample.) -/
theorem C1_roundtrip_natural_strides (shape : List Int) (order : NDARRAY_ORDER)
    (mode : NDARRAY_INDEX_MODE) (i : Int)
    (hpos : ∀ d ∈ shape, 0 < d) (h0 : 0 ≤ i) (h1 : i < shape.foldl (· * ·) 1) :
    ndarray_bind2vind shape (ndarray_shape2strides shape order) 0 order
      (ndarray_vind2bind shape (ndarray_shape2strides shape order) 0 order i mode) mode = i := by
  have hfold : shape.foldl (· * ·) 1 = shape.prod := List.prod_eq_foldl.symm
  have hprod1 : i < shape.prod := by rw [← hfold]; exact h1
  have hv : ndarray_vind2bind shape (ndarray_shape2strides shape order) 0 order i mode = i := by
    simp only [ndarray_vind2bind]
    rw [vindexAdjust_in_range _ _ _ h0 h1]
    cases order with
    | NDARRAY_ROW_MAJOR =>
      show (vind2bindLoop ((shape.zip
          (ndarray_shape2strides shape NDARRAY_ROW_MAJOR)).reverse) (i, 0)).2 = i
      rw [vind2bindLoop_nat_row shape i 0 hpos h0]
      show 0 + i % shape.prod = i
      rw [Int.emod_eq_of_lt h0 hprod1, zero_add]
    | NDARRAY_COLUMN_MAJOR =>
      show (vind2bindLoop (shape.zip (shape2stridesGo 1 shape)) (i, 0)).2 = i
      rw [vind2bindLoop_nat_col shape 1 i 0 hpos h0]
      show 0 + 1 * (i % shape.prod) = i
      rw [Int.emod_eq_of_lt h0 hprod1]
      ring
  rw [hv]
  simp only [ndarray_bind2vind]
  rw [vindexAdjust_in_range _ _ _ h0 h1]
  cases order with
  | NDARRAY_ROW_MAJOR =>
    show (bind2vindLoop (shape.zip (ndarray_shape2strides shape NDARRAY_ROW_MAJOR)) (i, 0)).2 = i
    rcases eq_or_ne shape [] with hnil | hnil
    · subst hnil
      have hi0 : i = 0 := by
        rw [List.prod_nil] at hprod1
        omega
      subst hi0
      rfl
    · rw [bind2vindLoop_nat_row shape i 0 hpos h0 hnil]
      show 0 + i = i
      omega
  | NDARRAY_COLUMN_MAJOR =>
    show (bind2vindLoop ((shape.zip (shape2stridesGo 1 shape)).reverse) (i, 0)).2 = i
    rw [bind2vindLoop_nat_col shape 1 i 0 hpos one_pos h0 (by rw [one_mul]; exact hprod1)]
    show 0 + (i - i % 1) = i
    rw [Int.emod_one]
    omega

/-- C1 witness: the natural row-major view of shape `[3,2]` round-trips the
view index 4 in wrap mode. -/
theorem C1_roundtrip_natural_strides_witness :
    ndarray_bind2vind [3, 2] (ndarray_shape2strides [3, 2] NDARRAY_ROW_MAJOR) 0 NDARRAY_ROW_MAJOR
      (ndarray_vind2bind [3, 2] (ndarray_shape2strides [3, 2] NDARRAY_ROW_MAJOR) 0
        NDARRAY_ROW_MAJOR 4 NDARRAY_INDEX_WRAP) NDARRAY_INDEX_WRAP = 4 :=
  C1_roundtrip_natural_strides [3, 2] NDARRAY_ROW_MAJOR NDARRAY_INDEX_WRAP 4
    (by decide) (by decide) (by decide)
